import Mathlib

/-!
Verification of the TTS request cache-and-cost engine of the
`tts-standalone` repository (`src/backend/services/ttsService.js`,
boundary layer `src/backend/routes/tts.js`).

The JavaScript code is shallowly embedded as follows:

* JS strings are Lean `String`s; `text.length` (UTF-16 code units) is
  `jsLength`; `Buffer.byteLength(text, 'utf8')` is `utf8Bytes` on the
  character list.
* JS numbers are `ℚ` (the amounts handled here are decimal fractions far
  inside the range where double-precision arithmetic is exact enough that
  `Math.round`/`Math.ceil`/`Math.floor` agree with the exact rational
  values); `Math.round` is `jsRound` (half-up, i.e. `⌊q + 1/2⌋`).
* Audio byte buffers are `List ℕ`; `Buffer.concat` is list append/flatten.
* External primitives (the `crypto` SHA-256 hash, the Google TTS client,
  `fs` directory listings and modification times) are passed in as explicit
  parameters of the embedded functions.
-/

/-- JS `String.prototype.length`: the number of UTF-16 code units; a code
point above U+FFFF is a surrogate pair and counts as 2. -/
def jsLength (s : String) : ℕ :=
  (s.toList.map (fun c => if c.toNat < 0x10000 then 1 else 2)).sum

/-- Number of bytes of the UTF-8 encoding of one character. -/
def charUtf8Bytes (c : Char) : ℕ :=
  if c.toNat < 0x80 then 1
  else if c.toNat < 0x800 then 2
  else if c.toNat < 0x10000 then 3
  else 4

/-- Node `Buffer.byteLength(·, 'utf8')` on a character list. -/
def utf8Bytes (s : List Char) : ℕ := (s.map charUtf8Bytes).sum

/-- JS `Math.round`: round half toward positive infinity. -/
def jsRound (q : ℚ) : ℤ := ⌊q + 1/2⌋

/-- The `Math.round(x * 100) / 100` idiom of `calculateCostUSD`:
round to 2 decimal places of USD. -/
def roundTo2 (q : ℚ) : ℚ := (jsRound (q * 100) : ℚ) / 100

/-- Boolean prefix test on character lists (for the substring test below). -/
def isPrefixOfB : List Char → List Char → Bool
  | [], _ => true
  | _ :: _, [] => false
  | a :: as, b :: bs => a == b && isPrefixOfB as bs

/-- Boolean substring test on character lists. -/
def containsList (needle : List Char) : List Char → Bool
  | [] => isPrefixOfB needle []
  | h :: t => isPrefixOfB needle (h :: t) || containsList needle t

/-- JS `hay.includes(needle)` substring test. -/
def strIncludes (hay needle : String) : Bool :=
  containsList needle.toList hay.toList

/-- `TTS_CONFIG.standardCostPerCharacterUSD = 0.000004` ($4 per 1M chars). -/
def standardCostPerCharacterUSD : ℚ := 4 / 1000000

/-- `TTS_CONFIG.neural2CostPerCharacterUSD = 0.000016` ($16 per 1M chars). -/
def neural2CostPerCharacterUSD : ℚ := 16 / 1000000

/-- `TTS_CONFIG.cacheExpiryHours = 168` (7 days). -/
def cacheExpiryHours : ℕ := 168

/-- `maxAge` of `cleanCache`: `TTS_CONFIG.cacheExpiryHours * 60 * 60 * 1000`
milliseconds. -/
def maxAgeMs : ℤ := (cacheExpiryHours : ℤ) * 60 * 60 * 1000

/-- `isNeural2Voice` from `ttsService.js`: the voice name contains
`"Neural2"` or is one of the two simplified neural tokens. -/
def isNeural2Voice (voiceName : String) : Bool :=
  strIncludes voiceName "Neural2" ||
    voiceName == "neural-female" ||
    voiceName == "neural-male"

/-- Per-character rate selected by `calculateCostUSD` for a voice name. -/
def costPerCharacter (voiceName : String) : ℚ :=
  if isNeural2Voice voiceName then neural2CostPerCharacterUSD
  else standardCostPerCharacterUSD

/-- `calculateCostUSD(characterCount, voiceName)`: character count times the
tier's per-character rate, rounded to 2 decimal places. -/
def calculateCostUSD (characterCount : ℕ) (voiceName : String) : ℚ :=
  roundTo2 ((characterCount : ℚ) * costPerCharacter voiceName)

/-- The `VOICE_MAP` table mapping simplified voice names (and legacy
provider ids) to Google Cloud TTS voice ids. -/
def VOICE_MAP (v : String) : Option String :=
  if v = "female" then some "en-US-Standard-C"
  else if v = "male" then some "en-US-Standard-B"
  else if v = "neural-female" then some "en-US-Neural2-F"
  else if v = "neural-male" then some "en-US-Neural2-D"
  else if v = "en-US-Standard-C" then some "en-US-Standard-C"
  else if v = "en-US-Standard-B" then some "en-US-Standard-B"
  else if v = "en-US-Neural2-F" then some "en-US-Neural2-F"
  else if v = "en-US-Neural2-D" then some "en-US-Neural2-D"
  else none

/-- `VOICE_MAP[requestedVoice] || VOICE_MAP['female']` as evaluated at the
top of `generateTTS` / per segment in `generateConversationTTS`. -/
def resolveVoice (requestedVoice : String) : String :=
  (VOICE_MAP requestedVoice).getD "en-US-Standard-C"

/-- `getSimplifiedVoiceName` from `ttsService.js` (used for cache
filenames). -/
def getSimplifiedVoiceName (voiceName : String) : String :=
  if voiceName = "female" ∨ voiceName = "male" ∨
      voiceName = "neural-female" ∨ voiceName = "neural-male" then voiceName
  else if voiceName = "en-US-Standard-C" then "female"
  else if voiceName = "en-US-Standard-B" then "male"
  else if voiceName = "en-US-Neural2-F" then "neural-female"
  else if voiceName = "en-US-Neural2-D" then "neural-male"
  else "female"

/-- The audio configuration object built by the route
(`defaultAudioConfig`) and fingerprinted by `generateCacheKey`.  The route
always populates exactly the keys `audioEncoding`, `speakingRate`, `pitch`
and `volumeGainDb` (caller-supplied values override the defaults). -/
structure AudioConfig where
  audioEncoding : String
  speakingRate : ℚ
  pitch : ℚ
  volumeGainDb : ℚ
deriving DecidableEq

/-- A JSON value, the canonical content that `generateCacheKey` feeds to
`JSON.stringify` and then to the SHA-256 hash.  `JSON.stringify` is
injective on this fragment (strings are quoted and escaped, numbers print
canonically, object keys here are fixed), so two requests produce the same
SHA-256 fingerprint exactly when they produce the same `JsonVal` — up to
hash collisions, which this development idealizes away. -/
inductive JsonVal where
  | str : String → JsonVal
  | num : ℚ → JsonVal
  | obj : List (String × JsonVal) → JsonVal

/-- JSON form of the audio configuration object. -/
def audioConfigJson (cfg : AudioConfig) : JsonVal :=
  .obj [("audioEncoding", .str cfg.audioEncoding),
        ("speakingRate", .num cfg.speakingRate),
        ("pitch", .num cfg.pitch),
        ("volumeGainDb", .num cfg.volumeGainDb)]

/-- The content hashed by `generateCacheKey(text, voiceName, audioConfig)`:
`JSON.stringify({ text, voiceName, audioConfig })`. -/
def cacheKeyJson (text voiceName : String) (cfg : AudioConfig) : JsonVal :=
  .obj [("text", .str text),
        ("voiceName", .str voiceName),
        ("audioConfig", audioConfigJson cfg)]

/-- The fingerprint content of a single-segment request as `generateTTS`
computes it: `generateCacheKey` is called with the RESOLVED provider voice
id (`VOICE_MAP[requestedVoice] || VOICE_MAP['female']`), not with the
caller's voice token. -/
def requestFingerprintContent (text voiceToken : String) (cfg : AudioConfig) : JsonVal :=
  cacheKeyJson text (resolveVoice voiceToken) cfg

/-- Terminal punctuation used by the sentence splitter
(`text.split(/[.!?]+/)`). -/
def isTerm (c : Char) : Bool := c == '.' || c == '!' || c == '?'

/-- Whitespace recognized by JS `String.prototype.trim` (the whitespace
characters that can occur in the texts handled here). -/
def isWS (c : Char) : Bool :=
  c == ' ' || c == '\t' || c == '\n' || c == '\r'

/-- JS `s.trim()`: strip leading and trailing whitespace. -/
def jsTrim (s : List Char) : List Char :=
  ((s.dropWhile isWS).reverse.dropWhile isWS).reverse

/-- Split a character list at every single terminal-punctuation character.
JS `split(/[.!?]+/)` collapses a RUN of terminators into one separator;
splitting at every terminator instead inserts an extra empty piece per
additional terminator of a run, and those empty pieces are exactly what the
subsequent `.filter(s => s.trim())` removes, so the filtered sentence lists
coincide. -/
def splitTerm : List Char → List (List Char)
  | [] => [[]]
  | c :: rest =>
    if isTerm c then [] :: splitTerm rest
    else
      match splitTerm rest with
      | [] => [[c]]
      | s :: ss => (c :: s) :: ss

/-- `text.split(/[.!?]+/).filter(s => s.trim())`: the sentence list used by
the chunking path of `generateTTS`. -/
def sentencesOf (text : List Char) : List (List Char) :=
  (splitTerm text).filter (fun s => !(jsTrim s).isEmpty)

/-- The chunk-accumulation loop of `generateTTS` (lines 283–296): a chunk
accumulates sentences (re-appending a `'.'` to each) until the next
sentence would push its UTF-8 byte length over `maxChunkSize`, then
flushes; a trailing non-blank chunk is flushed at the end. -/
def chunkLoop (maxB : ℕ) (chunks : List (List Char)) (cur : List Char) :
    List (List Char) → List (List Char)
  | [] => if (jsTrim cur).isEmpty then chunks else chunks ++ [jsTrim cur]
  | s :: rest =>
    let potential := cur ++ s ++ ['.']
    if maxB < utf8Bytes potential ∧ cur ≠ [] then
      chunkLoop maxB (chunks ++ [jsTrim cur]) (s ++ ['.']) rest
    else
      chunkLoop maxB chunks potential rest

/-- `maxChunkSize = 4500` ("Leave some buffer"). -/
def maxChunkSize : ℕ := 4500

/-- The chunks that `generateTTS` synthesizes separately when the text
exceeds the 5000-byte provider limit. -/
def buildChunks (text : List Char) : List (List Char) :=
  chunkLoop maxChunkSize [] [] (sentencesOf text)

/-- The per-chunk synthesis loop: `audioChunks.push(response.audioContent)`
for each chunk in order, then `Buffer.concat(audioChunks)`. -/
def chunkConcat (synth : List Char → List ℕ) (chunks : List (List Char)) : List ℕ :=
  (chunks.foldl (fun acc c => acc ++ [synth c]) []).flatten

/-- Where the audio of a cache-missing single-segment synthesis came from.
Provider bytes are opaque; the mock generator's WAV bytes (a sine tone) are
kept symbolic as `mock characterCount` since no claim depends on them. -/
inductive AudioSource where
  | provider : List ℕ → AudioSource
  | providerChunked : List (List ℕ) → AudioSource
  | mock : ℕ → AudioSource
deriving DecidableEq

/-- `Math.ceil(n / 10)` on a character count (exact in double precision for
the text sizes admitted by the route). -/
def jsCeil10 (n : ℕ) : ℕ := (n + 9) / 10

/-- `generateMockTTS` duration: `Math.max(1, Math.ceil(characterCount / 100))`. -/
def mockDuration (n : ℕ) : ℕ := max 1 ((n + 99) / 100)

/-- The chunk loop of the oversized-text path: each chunk goes through
`ttsClient.synthesizeSpeech`; the first provider exception aborts the loop
and propagates to the enclosing `catch`. -/
def chunkSynthAll (p : String → Except String (List ℕ)) :
    List (List Char) → Except String (List (List ℕ))
  | [] => .ok []
  | c :: rest =>
    match p (String.mk c) with
    | .error e => .error e
    | .ok a =>
      match chunkSynthAll p rest with
      | .error e => .error e
      | .ok as => .ok (a :: as)

/-- The synthesis stage of `generateTTS` (lines 269–340).  `client` models
`ttsClient` (`none` when Google credentials are unavailable); a client call
is a fallible function from the chunk text to audio bytes.  The
`try/catch` around the provider calls maps EVERY provider error — quota,
authentication, billing or generic — to the mock fallback; no provider
error escapes this stage. -/
def synthesisStage (client : Option (String → Except String (List ℕ)))
    (text : String) : AudioSource :=
  match client with
  | none => .mock (jsLength text)
  | some p =>
    if 5000 < utf8Bytes text.toList then
      match chunkSynthAll p (buildChunks text.toList) with
      | .ok cs => .providerChunked cs
      | .error _ => .mock (jsLength text)
    else
      match p text with
      | .ok a => .provider a
      | .error _ => .mock (jsLength text)

/-- `cacheKey.substring(0, 12)`: the hash fragment embedded in cache
filenames. -/
def strTake12 (s : String) : String := String.mk (s.toList.take 12)

/-- A single-segment synthesis request as destructured by `generateTTS`
(the route passes `characterCount = text.length`). -/
structure TTSRequest where
  text : String
  voiceName : String
  audioConfig : AudioConfig
  userId : String
  characterCount : ℕ

/-- The environment of external effects seen by one `generateTTS` call:
the cache directory listing, the SHA-256 hash over the stringified key
content, and the optional provider client. -/
structure TTSEnv where
  cacheFiles : List String
  hash : JsonVal → String
  client : Option (String → Except String (List ℕ))

/-- The value returned by `generateTTS`. -/
structure TTSResult where
  characterCount : ℕ
  estimatedCostUSD : ℚ
  voiceUsed : String
  duration : ℕ
  cacheHit : Bool
  source : Option AudioSource
deriving DecidableEq

/-- The cache probe of `generateTTS` (lines 236–239): find a file whose
name contains both the 12-character hash fragment and the simplified voice
tag. -/
def cacheLookup (env : TTSEnv) (req : TTSRequest) : Option String :=
  let voiceName := resolveVoice req.voiceName
  let hashPart := strTake12 (env.hash (cacheKeyJson req.text voiceName req.audioConfig))
  let voicePart := getSimplifiedVoiceName voiceName
  env.cacheFiles.find? (fun f => strIncludes f hashPart && strIncludes f voicePart)

/-- `characterCount` of the returned object: the provider paths echo the
request's `characterCount`, while `generateMockTTS` recomputes it as
`text.length`. -/
def responseCharacterCount (req : TTSRequest) : AudioSource → ℕ
  | .provider _ => req.characterCount
  | .providerChunked _ => req.characterCount
  | .mock m => m

/-- `duration` of the response built on a cache miss: `ceil(n/10)` on the
provider paths, the mock's own `max(1, ceil(textLength/100))` estimate on
the fallback path. -/
def responseDuration (req : TTSRequest) : AudioSource → ℕ
  | .provider _ => jsCeil10 req.characterCount
  | .providerChunked _ => jsCeil10 req.characterCount
  | .mock m => mockDuration m

/-- `generateTTS` (ttsService.js lines 210–373), with file-system writes,
usage tracking and the probabilistic cache sweep elided (they do not affect
the returned value). -/
def generateTTS (env : TTSEnv) (req : TTSRequest) : TTSResult :=
  let voiceName := resolveVoice req.voiceName
  match cacheLookup env req with
  | some _ =>
    { characterCount := req.characterCount
      estimatedCostUSD := 0
      voiceUsed := voiceName
      duration := jsCeil10 req.characterCount
      cacheHit := true
      source := none }
  | none =>
    let src := synthesisStage env.client req.text
    { characterCount := responseCharacterCount req src
      estimatedCostUSD := calculateCostUSD req.characterCount voiceName
      voiceUsed := voiceName
      duration := responseDuration req src
      cacheHit := false
      source := some src }

/-- One element of `conversationSegments`. -/
structure ConvSegment where
  text : String
  voiceName : String

/-- Running total `totalCharacters += segment.text.length` of
`generateConversationTTS`. -/
def convTotalCharacters : List ConvSegment → ℕ
  | [] => 0
  | s :: rest => jsLength s.text + convTotalCharacters rest

/-- Running total
`totalCost += calculateCostUSD(segment.text.length, voiceName)` where
`voiceName = VOICE_MAP[segment.voiceName] || VOICE_MAP['female']`. -/
def convTotalCost : List ConvSegment → ℚ
  | [] => 0
  | s :: rest =>
    calculateCostUSD (jsLength s.text) (resolveVoice s.voiceName) + convTotalCost rest

/-- Running total `totalDuration += Math.ceil(segment.text.length / 10)`. -/
def convTotalDuration : List ConvSegment → ℕ
  | [] => 0
  | s :: rest => jsCeil10 (jsLength s.text) + convTotalDuration rest

/-- `numSamples` of `generateSilenceBuffer`:
`Math.floor(24000 * Math.max(0.1, durationSeconds))`. -/
def silenceSamples (durationSeconds : ℚ) : ℕ :=
  (⌊24000 * max (1/10 : ℚ) durationSeconds⌋).toNat

/-- Little-endian 32-bit byte quadruple, as built by the
`x & 0xFF, (x >> 8) & 0xFF, (x >> 16) & 0xFF, (x >> 24) & 0xFF` rows of the
WAV headers. -/
def le32 (x : ℕ) : List ℕ :=
  [x % 256, x / 256 % 256, x / 65536 % 256, x / 16777216 % 256]

/-- The 44-byte WAV header that `generateSilenceBuffer` writes in front of
`dataSize` bytes of sample data (RIFF/WAVE, PCM, mono, 24 kHz, 16-bit). -/
def silenceWavHeader (dataSize : ℕ) : List ℕ :=
  [0x52, 0x49, 0x46, 0x46] ++ le32 (36 + dataSize) ++
  [0x57, 0x41, 0x56, 0x45,
   0x66, 0x6D, 0x74, 0x20,
   0x10, 0x00, 0x00, 0x00,
   0x01, 0x00,
   0x01, 0x00] ++ le32 24000 ++ le32 (24000 * 2) ++
  [0x02, 0x00,
   0x10, 0x00,
   0x64, 0x61, 0x74, 0x61] ++ le32 dataSize

/-- `generateSilenceBuffer(durationSeconds)`: a WAV header followed by
`numSamples` zero-amplitude 16-bit samples (`Buffer.alloc` zero-fills), for
a duration of at least 0.1 seconds. -/
def generateSilenceBuffer (durationSeconds : ℚ) : List ℕ :=
  silenceWavHeader (silenceSamples durationSeconds * 2) ++
    List.replicate (silenceSamples durationSeconds * 2) 0

/-- The `audioBuffers` list built by the segment loop of
`generateConversationTTS`: each segment's audio, with the pause buffer
pushed after every segment except the last (`if (i < length - 1)`).  The
per-segment provider call is abstracted as `synthSeg` because its own
`try/catch` always yields some bytes (provider audio or the mock). -/
def convBuffers (synthSeg : ConvSegment → List ℕ) (pause : List ℕ) :
    List ConvSegment → List (List ℕ)
  | [] => []
  | [s] => [synthSeg s]
  | s :: r :: rest => synthSeg s :: pause :: convBuffers synthSeg pause (r :: rest)

/-- `Buffer.concat(audioBuffers)`: the combined conversation artifact. -/
def convCombinedAudio (synthSeg : ConvSegment → List ℕ) (pause : List ℕ)
    (segs : List ConvSegment) : List ℕ :=
  (convBuffers synthSeg pause segs).flatten

/-- The literal voice name recorded by
`trackTTSUsage(userId, totalCharacters, 'conversation')` (line 615). -/
def conversationTrackedVoice : String := "conversation"

/-- The increment added to the user's `totalCostUSD` bucket by a
(non-anonymous) conversation generation:
`calculateCostUSD(totalCharacters, 'conversation')`. -/
def convUsageCostIncrement (segs : List ConvSegment) : ℚ :=
  calculateCostUSD (convTotalCharacters segs) conversationTrackedVoice

/-- `duration` reported by `generateConversationTTS` on a cache hit:
`Math.ceil(totalCharacters / 10)`, no pause contribution. -/
def convHitDuration (segs : List ConvSegment) : ℕ :=
  jsCeil10 (convTotalCharacters segs)

/-- `duration` reported on a cache miss:
`totalDuration + (conversationSegments.length - 1) * speakerPauseDuration`. -/
def convMissDuration (segs : List ConvSegment) (speakerPauseDuration : ℚ) : ℚ :=
  (convTotalDuration segs : ℚ) + ((segs.length - 1 : ℕ) : ℚ) * speakerPauseDuration

/-- A cache file as seen by `cleanCache`: its name and its last-modified
time `stats.mtime.getTime()` in epoch milliseconds. -/
structure CacheFile where
  name : String
  mtime : ℤ

/-- The `files.forEach` body of `cleanCache`: delete every file with
`now - mtime > maxAge`.  `unlinkOk` tells whether `fs.unlinkSync` succeeds
for a given name; a failing unlink throws, which aborts the `forEach` (the
remaining files are not visited) — the pair returned is (names actually
deleted, whether the sweep body threw). -/
def cleanCacheSweep (now : ℤ) (unlinkOk : String → Bool) :
    List CacheFile → List String × Bool
  | [] => ([], false)
  | f :: rest =>
    if maxAgeMs < now - f.mtime then
      if unlinkOk f.name then
        let r := cleanCacheSweep now unlinkOk rest
        (f.name :: r.1, r.2)
      else ([], true)
    else cleanCacheSweep now unlinkOk rest

/-- `cleanCache`: the sweep wrapped in `try { ... } catch (error) {
console.error(...) }` — the result is the list of deleted files plus the
error propagated to the caller, which the catch makes always `none`. -/
def cleanCache (now : ℤ) (unlinkOk : String → Bool) (files : List CacheFile) :
    List String × Option String :=
  let r := cleanCacheSweep now unlinkOk files
  (r.1, if r.2 then none else none)

/-- Audio configuration used by the concrete test inputs below (the route's
defaults: MP3, rate 1.0, pitch 0.0, volume gain 0.0). -/
def demoAudioConfig : AudioConfig := ⟨"MP3", 1, 0, 0⟩

/-- Request used by the C1 witness. -/
def demoRequest : TTSRequest := ⟨"Hello", "female", demoAudioConfig, "anonymous", 5⟩

/-- Environment whose cache directory already holds a file matching the
demo request's hash fragment and voice tag. -/
def demoEnvHit : TTSEnv :=
  ⟨["tts-female-aaaabbbbcccc-1700000000000.wav"], fun _ => "aaaabbbbccccddddeeee", none⟩

/-- Environment with an empty cache directory. -/
def demoEnvMiss : TTSEnv := ⟨[], fun _ => "aaaabbbbccccddddeeee", none⟩

/-- The example conversation of the spec: [{"Hi", "female"},
{"Hello", "neural-male"}]. -/
def c4Segments : List ConvSegment := [⟨"Hi", "female"⟩, ⟨"Hello", "neural-male"⟩]

/-- A sample synthesizer for the C6 witness (the audio bytes are opaque to
the chunking logic, so any concrete function will do). -/
def demoSynth (c : List Char) : List ℕ := [utf8Bytes c]

/-- A small two-sentence text for the C6 witness. -/
def demoChunkText : List Char := ("Hello there. Bye." : String).toList

/-- A 5001-character single "sentence" (no terminal punctuation). -/
def longSentence : List Char := List.replicate 5001 'a'

/-- Evaluation time for the C8 witness (epoch milliseconds). -/
def demoNow : ℤ := 1000000000000

/-- Cache listing for the C8 witness: one file far older than 7 days, one
modified a second ago. -/
def demoCacheFiles : List CacheFile := [⟨"old.wav", 0⟩, ⟨"new.wav", 999999999000⟩]

/-- Segments for the C9 divergence instance: one 313-character premium
(Neural2) segment, within the route's validation limits. -/
def c9Segments : List ConvSegment :=
  [⟨String.mk (List.replicate 313 'a'), "neural-male"⟩]

section Monotonicity

/-- Rounding to 2 decimals is weakly monotone. -/
theorem roundTo2_mono {a b : ℚ} (h : a ≤ b) : roundTo2 a ≤ roundTo2 b := by
  unfold roundTo2 jsRound
  have hf : (⌊a * 100 + 1/2⌋ : ℤ) ≤ ⌊b * 100 + 1/2⌋ :=
    Int.floor_le_floor (by linarith)
  have hq : ((⌊a * 100 + 1/2⌋ : ℤ) : ℚ) ≤ ((⌊b * 100 + 1/2⌋ : ℤ) : ℚ) := by
    exact_mod_cast hf
  linarith

/-- Both per-character rates are nonnegative. -/
theorem costPerCharacter_nonneg (v : String) : 0 ≤ costPerCharacter v := by
  unfold costPerCharacter
  split <;> norm_num [neural2CostPerCharacterUSD, standardCostPerCharacterUSD]

end Monotonicity

/-- C1: for every synthesis request, a cache lookup that finds a file (a
cache-directory entry containing both the 12-character hash fragment and
the voice tag) makes `generateTTS` return `estimatedCostUSD = 0` and
`cacheHit = true`, while an empty lookup makes it return
`cacheHit = false` and `estimatedCostUSD` equal to the freshly computed
cost-model value for the request's character count and resolved voice. -/
theorem generateTTS_cache_cost (env : TTSEnv) (req : TTSRequest) :
    (cacheLookup env req ≠ none →
      (generateTTS env req).cacheHit = true ∧
        (generateTTS env req).estimatedCostUSD = 0) ∧
    (cacheLookup env req = none →
      (generateTTS env req).cacheHit = false ∧
        (generateTTS env req).estimatedCostUSD =
          calculateCostUSD req.characterCount (resolveVoice req.voiceName)) := by
  cases h : cacheLookup env req with
  | none => simp [generateTTS, h]
  | some f => simp [generateTTS, h]

/-- Witness for C1: a concrete request against a cache that holds a
matching file (hit: zero cost) and against an empty cache (miss: freshly
computed cost). -/
theorem generateTTS_cache_cost_witness :
    (generateTTS demoEnvHit demoRequest).cacheHit = true ∧
    (generateTTS demoEnvHit demoRequest).estimatedCostUSD = 0 ∧
    (generateTTS demoEnvMiss demoRequest).cacheHit = false ∧
    (generateTTS demoEnvMiss demoRequest).estimatedCostUSD =
      calculateCostUSD 5 (resolveVoice "female") := by
  have h1 := (generateTTS_cache_cost demoEnvHit demoRequest).1 (by decide)
  have h2 := (generateTTS_cache_cost demoEnvMiss demoRequest).2 (by decide)
  exact ⟨h1.1, h1.2, h2.1, h2.2⟩

/-- C2 counterexample: two single-segment requests that differ in the voice
field — `"female"` versus the legacy spelling `"en-US-Standard-C"` — are
mapped by `VOICE_MAP` to the same provider voice id, so `generateCacheKey`
hashes identical content and the two requests share one cache fingerprint
(and hence hit each other's cache entries), refuting "changing any single
field yields a different cache fingerprint". -/
theorem fingerprint_ignores_voice_spelling :
    ("female" : String) ≠ "en-US-Standard-C" ∧
    requestFingerprintContent "Hello" "female" demoAudioConfig =
      requestFingerprintContent "Hello" "en-US-Standard-C" demoAudioConfig := by
  have h : resolveVoice "female" = resolveVoice "en-US-Standard-C" := by decide
  exact ⟨by decide, by unfold requestFingerprintContent; rw [h]⟩

/-- C2 (amended): the cache fingerprint content is a pure function of the
text, the RESOLVED provider voice id and the audio configuration, and two
single-segment requests share a fingerprint exactly when those three
coincide — so changing the text, any audio field, or the voice in a way
that changes the resolved id gives a fresh fingerprint, while respelling
the voice to the same resolved id does not. -/
theorem fingerprintContent_inj (t₁ t₂ v₁ v₂ : String) (c₁ c₂ : AudioConfig) :
    requestFingerprintContent t₁ v₁ c₁ = requestFingerprintContent t₂ v₂ c₂ ↔
      (t₁ = t₂ ∧ resolveVoice v₁ = resolveVoice v₂ ∧ c₁ = c₂) := by
  cases c₁
  cases c₂
  simp [requestFingerprintContent, cacheKeyJson, audioConfigJson, AudioConfig.mk.injEq]

/-- C3 counterexample: the computed cost is NOT linear in character count —
the 2-decimal rounding makes 1250 standard-tier characters cost $0.01 while
2500 characters cost $0.01 as well, not $0.02. -/
theorem calculateCostUSD_not_linear :
    calculateCostUSD 1250 "en-US-Standard-C" = 1/100 ∧
    calculateCostUSD 2500 "en-US-Standard-C" = 1/100 ∧
    calculateCostUSD 2500 "en-US-Standard-C" ≠
      calculateCostUSD 1250 "en-US-Standard-C" +
        calculateCostUSD 1250 "en-US-Standard-C" := by
  have h : isNeural2Voice "en-US-Standard-C" = false := by decide
  refine ⟨?_, ?_, ?_⟩ <;>
    norm_num [calculateCostUSD, costPerCharacter, h, roundTo2, jsRound,
      standardCostPerCharacterUSD]

/-- C3 (amended): the computed cost equals the 2-decimal rounding of
(character count × the tier's per-character rate); it is weakly monotone in
character count; the premium (Neural2) rate is exactly 4× the standard
rate; and the pre-rounding cost is linear — but the rounded result itself
is not (see the counterexample). -/
theorem calculateCostUSD_spec (n m : ℕ) (v : String) (h : n ≤ m) :
    calculateCostUSD n v = roundTo2 ((n : ℚ) * costPerCharacter v) ∧
    calculateCostUSD n v ≤ calculateCostUSD m v ∧
    neural2CostPerCharacterUSD = 4 * standardCostPerCharacterUSD ∧
    ((n : ℚ) + (m : ℚ)) * costPerCharacter v =
      (n : ℚ) * costPerCharacter v + (m : ℚ) * costPerCharacter v := by
  refine ⟨rfl, ?_, ?_, by ring⟩
  · apply roundTo2_mono
    have hc : (n : ℚ) ≤ (m : ℚ) := by exact_mod_cast h
    exact mul_le_mul_of_nonneg_right hc (costPerCharacter_nonneg v)
  · norm_num [neural2CostPerCharacterUSD, standardCostPerCharacterUSD]

/-- Witness for C3 (amended), at 1000 ≤ 2000 characters of a Neural2
voice. -/
theorem calculateCostUSD_spec_witness :
    (1000 : ℕ) ≤ 2000 ∧
    calculateCostUSD 1000 "neural-female" ≤ calculateCostUSD 2000 "neural-female" ∧
    neural2CostPerCharacterUSD = 4 * standardCostPerCharacterUSD := by
  have h := calculateCostUSD_spec 1000 2000 "neural-female" (by norm_num)
  exact ⟨by norm_num, h.2.1, h.2.2.1⟩

/-- C4 counterexample: on the spec's example conversation the code's total
is $0.00, not the claimed $0.000088 — each per-segment cost is rounded to 2
decimal places by `calculateCostUSD` BEFORE being summed, and both
segments round to zero. -/
theorem convTotalCost_example_is_zero :
    convTotalCharacters c4Segments = 7 ∧
    convTotalCost c4Segments = 0 ∧
    (88 / 1000000 : ℚ) ≠ 0 := by
  have hstd : isNeural2Voice "en-US-Standard-C" = false := by decide
  have hneu : isNeural2Voice "en-US-Neural2-D" = true := by decide
  have hv1 : resolveVoice "female" = "en-US-Standard-C" := by decide
  have hv2 : resolveVoice "neural-male" = "en-US-Neural2-D" := by decide
  have hl1 : jsLength "Hi" = 2 := by decide
  have hl2 : jsLength "Hello" = 5 := by decide
  refine ⟨by decide, ?_, by norm_num⟩
  simp only [c4Segments, convTotalCost, hv1, hv2, hl1, hl2]
  norm_num [calculateCostUSD, costPerCharacter, hstd, hneu, roundTo2, jsRound,
    standardCostPerCharacterUSD, neural2CostPerCharacterUSD]

/-- C4 (amended): on a cache miss the conversation's total cost is the sum
over segments of the cost model evaluated at that segment's own character
count and resolved voice tier — where each per-segment evaluation is
already rounded to 2 decimal places, so the spec's sub-cent example sums to
$0.00. -/
theorem convTotalCost_eq_sum (segs : List ConvSegment) :
    convTotalCost segs =
      (segs.map (fun s =>
        calculateCostUSD (jsLength s.text) (resolveVoice s.voiceName))).sum := by
  induction segs with
  | nil => rfl
  | cons s rest ih => simp [convTotalCost, ih]

/-- C5 counterexample: a provider error explicitly tagged "quota" during
single-segment synthesis is NOT propagated upward — the `catch` around the
provider call replaces it by the silent local mock fallback, exactly as for
a generic error, so the boundary layer's 429/401/402 mapping never sees
it. -/
theorem quota_error_silently_falls_back :
    synthesisStage (some (fun _ => Except.error "quota exceeded")) "Hello" =
      .mock 5 := by
  decide

/-- C5 (amended): the synthesis stage treats provider errors of every kind
identically — for any two error messages (for example "quota exceeded" and
a generic failure) the resulting audio source is the same, and whenever the
text is within the 5000-byte provider limit a failing provider always
yields the silent mock fallback; no provider error escapes the stage. -/
theorem synthesisStage_error_kind_irrelevant (e₁ e₂ : String) (text : String) :
    synthesisStage (some (fun _ => Except.error e₁)) text =
      synthesisStage (some (fun _ => Except.error e₂)) text ∧
    (utf8Bytes text.toList ≤ 5000 →
      synthesisStage (some (fun _ => Except.error e₁)) text =
        .mock (jsLength text)) := by
  constructor
  · by_cases h : 5000 < utf8Bytes text.toList
    · simp only [synthesisStage, if_pos h]
      cases hc : buildChunks text.toList with
      | nil => simp [chunkSynthAll]
      | cons c rest => simp [chunkSynthAll]
    · simp only [synthesisStage, if_neg h]
  · intro hb
    simp only [synthesisStage, if_neg (by omega : ¬ 5000 < utf8Bytes text.toList)]

/-- Witness for C5 (amended): a billing-tagged provider failure on a
2-character text produces the mock fallback. -/
theorem synthesisStage_error_kind_irrelevant_witness :
    utf8Bytes ("Hi" : String).toList ≤ 5000 ∧
    synthesisStage (some (fun _ => Except.error "billing account required")) "Hi" =
      .mock 2 := by
  have h :=
    (synthesisStage_error_kind_irrelevant "billing account required"
      "generic failure" "Hi").2 (by decide)
  refine ⟨by decide, ?_⟩
  rw [h]
  decide

section Chunking

theorem utf8Bytes_append (a b : List Char) :
    utf8Bytes (a ++ b) = utf8Bytes a + utf8Bytes b := by
  simp [utf8Bytes]

theorem utf8Bytes_dropWhile_le (p : Char → Bool) (s : List Char) :
    utf8Bytes (s.dropWhile p) ≤ utf8Bytes s := by
  induction s with
  | nil => simp
  | cons c t ih =>
    rw [List.dropWhile_cons]
    split
    · refine le_trans ih ?_
      simp [utf8Bytes]
    · exact le_refl _

theorem utf8Bytes_reverse (s : List Char) : utf8Bytes s.reverse = utf8Bytes s := by
  simp [utf8Bytes, List.sum_reverse]

theorem utf8Bytes_jsTrim_le (s : List Char) : utf8Bytes (jsTrim s) ≤ utf8Bytes s := by
  unfold jsTrim
  calc utf8Bytes ((s.dropWhile isWS).reverse.dropWhile isWS).reverse
      = utf8Bytes ((s.dropWhile isWS).reverse.dropWhile isWS) := utf8Bytes_reverse _
    _ ≤ utf8Bytes (s.dropWhile isWS).reverse := utf8Bytes_dropWhile_le _ _
    _ = utf8Bytes (s.dropWhile isWS) := utf8Bytes_reverse _
    _ ≤ utf8Bytes s := utf8Bytes_dropWhile_le _ _

/-- Invariant of the chunk-accumulation loop: if every sentence (plus its
re-appended period) fits in `maxB` bytes, every produced chunk fits in
`maxB` bytes. -/
theorem chunkLoop_bytes_le (maxB : ℕ) (sents : List (List Char)) :
    ∀ chunks cur, (∀ s ∈ sents, utf8Bytes s + 1 ≤ maxB) →
      (∀ c ∈ chunks, utf8Bytes c ≤ maxB) → utf8Bytes cur ≤ maxB →
      ∀ c ∈ chunkLoop maxB chunks cur sents, utf8Bytes c ≤ maxB := by
  induction sents with
  | nil =>
    intro chunks cur _ hch hcur c hc
    rw [chunkLoop] at hc
    split at hc
    · exact hch c hc
    · rcases List.mem_append.mp hc with h | h
      · exact hch c h
      · have : c = jsTrim cur := List.mem_singleton.mp h
        subst this
        exact le_trans (utf8Bytes_jsTrim_le cur) hcur
  | cons s rest ih =>
    intro chunks cur hs hch hcur c hc
    rw [chunkLoop] at hc
    have hsfit : utf8Bytes s + 1 ≤ maxB := hs s (by simp)
    have hdot : utf8Bytes (s ++ ['.']) = utf8Bytes s + 1 := by
      rw [utf8Bytes_append]
      simp [utf8Bytes, charUtf8Bytes]
    by_cases hcond : maxB < utf8Bytes (cur ++ s ++ ['.']) ∧ cur ≠ []
    · rw [if_pos hcond] at hc
      refine ih _ _ (fun t ht => hs t (by simp [ht])) ?_ ?_ c hc
      · intro d hd
        rcases List.mem_append.mp hd with h | h
        · exact hch d h
        · have : d = jsTrim cur := List.mem_singleton.mp h
          subst this
          exact le_trans (utf8Bytes_jsTrim_le cur) hcur
      · omega
    · rw [if_neg hcond] at hc
      refine ih _ _ (fun t ht => hs t (by simp [ht])) hch ?_ c hc
      push_neg at hcond
      by_cases hnil : cur = []
      · subst hnil
        simpa [hdot] using hsfit
      · have h1 : ¬ maxB < utf8Bytes (cur ++ s ++ ['.']) := fun hlt => hnil (hcond hlt)
        omega

theorem foldl_push_eq_map {α β : Type} (f : α → β) (l : List α) :
    ∀ acc : List β, l.foldl (fun a c => a ++ [f c]) acc = acc ++ l.map f := by
  induction l with
  | nil => intro acc; simp
  | cons c t ih => intro acc; simp [ih]

/-- C6 (amended): when the oversized-text path splits at terminal
punctuation, every chunk stays within the 4500-byte safety threshold
PROVIDED every individual sentence (with its re-appended period) fits in
4500 bytes — a single longer sentence yields an oversized chunk (see the
counterexample) — and the per-chunk audio streams are concatenated strictly
in chunk order. -/
theorem buildChunks_bytes_le (text : List Char) (synth : List Char → List ℕ)
    (H : ∀ s ∈ sentencesOf text, utf8Bytes s + 1 ≤ maxChunkSize) :
    (∀ c ∈ buildChunks text, utf8Bytes c ≤ maxChunkSize) ∧
    chunkConcat synth (buildChunks text) = ((buildChunks text).map synth).flatten := by
  constructor
  · exact chunkLoop_bytes_le maxChunkSize (sentencesOf text) [] [] H
      (by intro c hc; simp at hc) (by simp [utf8Bytes])
  · unfold chunkConcat
    rw [foldl_push_eq_map]
    simp

/-- Witness for C6 (amended): a two-sentence text whose sentences are tiny,
chunked and concatenated. -/
theorem buildChunks_bytes_le_witness :
    (∀ s ∈ sentencesOf demoChunkText, utf8Bytes s + 1 ≤ maxChunkSize) ∧
    (∀ c ∈ buildChunks demoChunkText, utf8Bytes c ≤ maxChunkSize) ∧
    chunkConcat demoSynth (buildChunks demoChunkText) =
      ((buildChunks demoChunkText).map demoSynth).flatten := by
  have h := buildChunks_bytes_le demoChunkText demoSynth (by decide)
  exact ⟨by decide, h.1, h.2⟩

theorem utf8Bytes_replicate_a (n : ℕ) : utf8Bytes (List.replicate n 'a') = n := by
  have h : charUtf8Bytes 'a' = 1 := by decide
  simp [utf8Bytes, List.map_replicate, h, List.sum_replicate]

theorem splitTerm_no_term (s : List Char) (h : ∀ c ∈ s, isTerm c = false) :
    splitTerm s = [s] := by
  induction s with
  | nil => rfl
  | cons c t ih =>
    have hc : isTerm c = false := h c (by simp)
    rw [splitTerm, if_neg (by simp [hc]), ih (fun x hx => h x (by simp [hx]))]

theorem dropWhile_isWS_replicate_a (n : ℕ) :
    (List.replicate n 'a').dropWhile isWS = List.replicate n 'a' := by
  cases n with
  | zero => rfl
  | succ m =>
    rw [List.replicate_succ, List.dropWhile_cons]
    simp [show isWS 'a' = false from by decide]

theorem jsTrim_replicate_a (n : ℕ) :
    jsTrim (List.replicate n 'a') = List.replicate n 'a' := by
  unfold jsTrim
  rw [dropWhile_isWS_replicate_a, List.reverse_replicate,
    dropWhile_isWS_replicate_a, List.reverse_replicate]

theorem jsTrim_replicate_a_dot (n : ℕ) :
    jsTrim (List.replicate n 'a' ++ ['.']) = List.replicate n 'a' ++ ['.'] := by
  have h1 : (List.replicate n 'a' ++ ['.']).dropWhile isWS =
      List.replicate n 'a' ++ ['.'] := by
    cases n with
    | zero => decide
    | succ m =>
      rw [List.replicate_succ, List.cons_append, List.dropWhile_cons]
      simp [show isWS 'a' = false from by decide]
  unfold jsTrim
  rw [h1, List.reverse_append, List.reverse_replicate]
  have h2 : (['.'] : List Char).reverse = ['.'] := rfl
  rw [h2]
  rw [show (['.'] : List Char) ++ List.replicate n 'a' = '.' :: List.replicate n 'a' from rfl]
  rw [List.dropWhile_cons]
  simp [show isWS '.' = false from by decide, List.reverse_replicate]

/-- C6 counterexample: a text of 5001 'a' characters exceeds the 5000-byte
provider limit and contains no sentence boundary, so the splitter yields a
single 5002-byte chunk — far above the 4500-byte safety threshold, refuting
"each chunk's UTF-8 byte length is under the 4500-byte safety
threshold". -/
theorem buildChunks_oversized_sentence :
    5000 < utf8Bytes longSentence ∧
    buildChunks longSentence = [longSentence ++ ['.']] ∧
    maxChunkSize < utf8Bytes (longSentence ++ ['.']) := by
  have hb : utf8Bytes longSentence = 5001 := utf8Bytes_replicate_a 5001
  have hdot : utf8Bytes (longSentence ++ ['.']) = 5002 := by
    rw [utf8Bytes_append, hb]
    decide
  refine ⟨by omega, ?_, by rw [hdot]; decide⟩
  have hterm : ∀ c ∈ longSentence, isTerm c = false := by
    intro c hc
    rw [List.eq_of_mem_replicate hc]
    decide
  have hne : (List.replicate 5001 'a').isEmpty = false := by
    rw [List.replicate_succ]
    rfl
  have hs : sentencesOf longSentence = [longSentence] := by
    unfold sentencesOf
    rw [splitTerm_no_term _ hterm]
    simp only [List.filter, jsTrim_replicate_a, longSentence, hne]
    rfl
  unfold buildChunks
  rw [hs, chunkLoop]
  rw [if_neg (by simp)]
  rw [chunkLoop]
  simp only [longSentence, List.nil_append]
  rw [jsTrim_replicate_a_dot]
  have hne2 : (List.replicate 5001 'a' ++ ['.']).isEmpty = false := by
    rw [List.replicate_succ]
    rfl
  rw [hne2, if_neg (by exact Bool.false_ne_true)]

end Chunking

/-- C7: on a cache miss the conversation artifact is assembled strictly in
input order — a single segment is emitted bare, and a longer conversation
is segment 1's audio, then one silence buffer, then the assembly of the
remaining segments, so a pause follows every segment except the last; the
silence buffer is generated locally as a WAV header followed by
zero-amplitude 16-bit samples sized to the requested pause duration with a
0.1-second minimum. -/
theorem conversation_assembly_order (synthSeg : ConvSegment → List ℕ) (d : ℚ)
    (s r : ConvSegment) (rest : List ConvSegment) :
    convCombinedAudio synthSeg (generateSilenceBuffer d) [s] = synthSeg s ∧
    convCombinedAudio synthSeg (generateSilenceBuffer d) (s :: r :: rest) =
      synthSeg s ++ generateSilenceBuffer d ++
        convCombinedAudio synthSeg (generateSilenceBuffer d) (r :: rest) ∧
    generateSilenceBuffer d =
      silenceWavHeader (silenceSamples d * 2) ++
        List.replicate (silenceSamples d * 2) 0 ∧
    silenceSamples d = (⌊24000 * max (1/10 : ℚ) d⌋).toNat := by
  refine ⟨?_, ?_, rfl, rfl⟩
  · simp [convCombinedAudio, convBuffers]
  · simp [convCombinedAudio, convBuffers]

/-- C8: a cache-eviction sweep deletes only files strictly older than the
7-day retention window (never a file whose age is within it); when no
unlink fails, every file older than the window is deleted by the sweep; and
the catch block means no eviction error is ever propagated to the
caller. -/
theorem cleanCache_retention (now : ℤ) (unlinkOk : String → Bool)
    (files : List CacheFile) :
    (∀ n ∈ (cleanCacheSweep now unlinkOk files).1,
      ∃ f ∈ files, f.name = n ∧ maxAgeMs < now - f.mtime) ∧
    ((∀ s, unlinkOk s = true) →
      ∀ f ∈ files, maxAgeMs < now - f.mtime →
        f.name ∈ (cleanCacheSweep now unlinkOk files).1) ∧
    (cleanCache now unlinkOk files).2 = none := by
  refine ⟨?_, ?_, by simp [cleanCache]⟩
  · induction files with
    | nil => intro n hn; simp [cleanCacheSweep] at hn
    | cons f rest ih =>
      intro n hn
      rw [cleanCacheSweep] at hn
      by_cases hage : maxAgeMs < now - f.mtime
      · rw [if_pos hage] at hn
        by_cases hu : unlinkOk f.name = true
        · rw [if_pos hu] at hn
          rcases List.mem_cons.mp hn with h | h
          · exact ⟨f, by simp, h.symm, hage⟩
          · obtain ⟨g, hg, hgn, hgage⟩ := ih n h
            exact ⟨g, by simp [hg], hgn, hgage⟩
        · rw [if_neg hu] at hn
          simp at hn
      · rw [if_neg hage] at hn
        obtain ⟨g, hg, hgn, hgage⟩ := ih n hn
        exact ⟨g, by simp [hg], hgn, hgage⟩
  · intro hu f hf hage
    induction files with
    | nil => simp at hf
    | cons g rest ih =>
      rw [cleanCacheSweep]
      rcases List.mem_cons.mp hf with h | h
      · subst h
        rw [if_pos hage, if_pos (hu f.name)]
        exact List.mem_cons_self _ _
      · by_cases hgage : maxAgeMs < now - g.mtime
        · rw [if_pos hgage, if_pos (hu g.name)]
          exact List.mem_cons_of_mem _ (ih h)
        · rw [if_neg hgage]
          exact ih h

/-- Witness for C8: on the demo listing the sweep deletes exactly the old
file and propagates no error. -/
theorem cleanCache_retention_witness :
    "old.wav" ∈ (cleanCacheSweep demoNow (fun _ => true) demoCacheFiles).1 ∧
    (cleanCache demoNow (fun _ => true) demoCacheFiles).2 = none := by
  have h := cleanCache_retention demoNow (fun _ => true) demoCacheFiles
  refine ⟨?_, h.2.2⟩
  exact h.2.1 (fun s => rfl) ⟨"old.wav", 0⟩ (by simp [demoCacheFiles])
    (by norm_num [maxAgeMs, cacheExpiryHours, demoNow])

theorem jsLength_mk_replicate_a (n : ℕ) :
    jsLength (String.mk (List.replicate n 'a')) = n := by
  have h : (if ('a').toNat < 0x10000 then 1 else 2) = 1 := by decide
  simp only [jsLength, String.toList]
  rw [List.map_replicate, h, List.sum_replicate, smul_eq_mul, mul_one]

/-- C9: a conversation generation for an authenticated subject updates the
usage tracker with the literal voice name "conversation", which the tier
classifier `isNeural2Voice` treats as standard tier, so the tracked cost
increment is the 2-decimal rounding of (total characters × standard rate)
regardless of how many segments used premium voices — and on a concrete
all-premium conversation it differs from the `estimatedCostUSD` returned to
the caller. -/
theorem conversation_usage_tracked_at_standard_rate :
    isNeural2Voice conversationTrackedVoice = false ∧
    (∀ segs : List ConvSegment,
      convUsageCostIncrement segs =
        roundTo2 ((convTotalCharacters segs : ℚ) * standardCostPerCharacterUSD)) ∧
    convUsageCostIncrement c9Segments = 0 ∧
    convTotalCost c9Segments = 1/100 ∧
    convUsageCostIncrement c9Segments ≠ convTotalCost c9Segments := by
  have hconv : isNeural2Voice conversationTrackedVoice = false := by decide
  have hspec : ∀ segs : List ConvSegment,
      convUsageCostIncrement segs =
        roundTo2 ((convTotalCharacters segs : ℚ) * standardCostPerCharacterUSD) := by
    intro segs
    unfold convUsageCostIncrement calculateCostUSD costPerCharacter
    rw [hconv]
    simp
  have hlen : jsLength (String.mk (List.replicate 313 'a')) = 313 :=
    jsLength_mk_replicate_a 313
  have hneu : isNeural2Voice "en-US-Neural2-D" = true := by decide
  have hv : resolveVoice "neural-male" = "en-US-Neural2-D" := by decide
  have htrack : convUsageCostIncrement c9Segments = 0 := by
    rw [hspec]
    simp only [c9Segments, convTotalCharacters, hlen]
    norm_num [roundTo2, jsRound, standardCostPerCharacterUSD]
  have hret : convTotalCost c9Segments = 1/100 := by
    simp only [c9Segments, convTotalCost, hlen, hv]
    norm_num [calculateCostUSD, costPerCharacter, hneu, roundTo2, jsRound,
      neural2CostPerCharacterUSD]
  exact ⟨hconv, hspec, htrack, hret, by rw [htrack, hret]; norm_num⟩

theorem jsCeil10_add_le (a b : ℕ) : jsCeil10 (a + b) ≤ jsCeil10 a + jsCeil10 b := by
  unfold jsCeil10
  have ha : a ≤ 10 * ((a + 9) / 10) := by
    have h1 := Nat.div_add_mod (a + 9) 10
    have h2 : (a + 9) % 10 < 10 := Nat.mod_lt _ (by norm_num)
    omega
  have hb : b ≤ 10 * ((b + 9) / 10) := by
    have h1 := Nat.div_add_mod (b + 9) 10
    have h2 : (b + 9) % 10 < 10 := Nat.mod_lt _ (by norm_num)
    omega
  have hlt : a + b + 9 < ((a + 9) / 10 + (b + 9) / 10 + 1) * 10 := by omega
  exact Nat.lt_succ_iff.mp ((Nat.div_lt_iff_lt_mul (by norm_num)).mpr hlt)

/-- The sum of per-segment `ceil(len/10)` estimates dominates the
`ceil(total/10)` estimate. -/
theorem convHitDuration_le_totalDuration (segs : List ConvSegment) :
    jsCeil10 (convTotalCharacters segs) ≤ convTotalDuration segs := by
  induction segs with
  | nil => simp [convTotalCharacters, convTotalDuration, jsCeil10]
  | cons s rest ih =>
    simp only [convTotalCharacters, convTotalDuration]
    calc jsCeil10 (jsLength s.text + convTotalCharacters rest)
        ≤ jsCeil10 (jsLength s.text) + jsCeil10 (convTotalCharacters rest) :=
          jsCeil10_add_le _ _
      _ ≤ jsCeil10 (jsLength s.text) + convTotalDuration rest := by omega

/-- C10: the duration reported for one and the same conversation request
depends on cache state — a hit reports `ceil(totalCharacters/10)` with no
pause contribution, a miss reports the sum of per-segment
`ceil(segmentLength/10)` estimates plus (segmentCount − 1) pauses — and for
every multi-segment conversation (the route admits pauses of at least 0.1
seconds) the miss value is strictly larger, so the reported duration is not
a function of the request alone. -/
theorem conversation_duration_depends_on_cache (segs : List ConvSegment)
    (p : ℚ) (hp : 1/10 ≤ p) (h2 : 2 ≤ segs.length) :
    convHitDuration segs = jsCeil10 (convTotalCharacters segs) ∧
    convMissDuration segs p =
      (convTotalDuration segs : ℚ) + ((segs.length - 1 : ℕ) : ℚ) * p ∧
    (convHitDuration segs : ℚ) < convMissDuration segs p ∧
    (convHitDuration segs : ℚ) ≠ convMissDuration segs p := by
  have h1 : (convHitDuration segs : ℚ) ≤ (convTotalDuration segs : ℚ) := by
    exact_mod_cast convHitDuration_le_totalDuration segs
  have h3 : (1 : ℚ) ≤ ((segs.length - 1 : ℕ) : ℚ) := by
    have : 1 ≤ segs.length - 1 := by omega
    exact_mod_cast this
  have h4 : (1/10 : ℚ) ≤ ((segs.length - 1 : ℕ) : ℚ) * p := by
    calc (1/10 : ℚ) = 1 * (1/10) := by ring
      _ ≤ ((segs.length - 1 : ℕ) : ℚ) * p :=
        mul_le_mul h3 hp (by norm_num) (le_trans zero_le_one h3)
  have hlt : (convHitDuration segs : ℚ) < convMissDuration segs p := by
    unfold convMissDuration
    linarith
  exact ⟨rfl, rfl, hlt, ne_of_lt hlt⟩

/-- Witness for C10: the two-segment demo conversation with the default
0.5-second pause reports duration 1 on a hit and 2.5 on a miss. -/
theorem conversation_duration_depends_on_cache_witness :
    (1/10 : ℚ) ≤ 1/2 ∧ 2 ≤ c4Segments.length ∧
    convHitDuration c4Segments = 1 ∧
    convMissDuration c4Segments (1/2) = 5/2 ∧
    (convHitDuration c4Segments : ℚ) ≠ convMissDuration c4Segments (1/2) := by
  have h := conversation_duration_depends_on_cache c4Segments (1/2)
    (by norm_num) (by decide)
  refine ⟨by norm_num, by decide, by decide, ?_, h.2.2.2⟩
  have hl1 : jsLength "Hi" = 2 := by decide
  have hl2 : jsLength "Hello" = 5 := by decide
  simp only [convMissDuration, c4Segments, convTotalDuration, hl1, hl2]
  norm_num [jsCeil10]
